import Mathlib

/-!
Verification of the Fusion-Share pairing and chunked file-transfer protocol.

The definitions below are a shallow embedding of the TypeScript sources:
frontend/src/App.tsx (chunked transfer over the peer data channel, ICE
candidate buffering) and backend/src/index.ts (room registry and signaling
broker).  Byte buffers (ArrayBuffer / Uint8Array contents) are lists of
naturals below 256, strings are Lean strings, base64 payloads are lists of
characters, and WebSocket connection handles are naturals.
-/

namespace FusionShare

/-!
### Base64

Model of the platform builtins window.btoa and window.atob, which
App.tsx wraps as arrayBufferToBase64 and base64ToArrayBuffer.  btoa
consumes a binary string whose code units are exactly the buffer's bytes
(the String.fromCharCode loop), so we let it consume the byte list
directly.  atob throws a DOMException on input that is not valid base64;
that is modelled with an Option result (the caller handleIncomingData
wraps everything in try/catch, leaving all state unchanged on a throw).
-/

def b64Chars : List Char :=
  "ABCDEFGHIJKLMNOPQRSTUVWXYZabcdefghijklmnopqrstuvwxyz0123456789+/".toList

def b64Char (i : Nat) : Char := b64Chars.getD i 'A'

def b64Idx (c : Char) : Option Nat :=
  if c ∈ b64Chars then some (b64Chars.indexOf c) else none

def btoa : List Nat → List Char
  | [] => []
  | [a] => [b64Char (a / 4), b64Char (a % 4 * 16), '=', '=']
  | [a, b] => [b64Char (a / 4), b64Char (a % 4 * 16 + b / 16), b64Char (b % 16 * 4), '=']
  | a :: b :: c :: rest =>
      b64Char (a / 4) :: b64Char (a % 4 * 16 + b / 16) ::
        b64Char (b % 16 * 4 + c / 64) :: b64Char (c % 64) :: btoa rest

def atob : List Char → Option (List Nat)
  | [] => some []
  | w :: x :: y :: z :: rest => do
      let iw ← b64Idx w
      let ix ← b64Idx x
      if y = '=' then
        if z = '=' ∧ rest = [] then some [iw * 4 + ix / 16] else none
      else do
        let iy ← b64Idx y
        if z = '=' then
          if rest = [] then some [iw * 4 + ix / 16, ix % 16 * 16 + iy / 4] else none
        else do
          let iz ← b64Idx z
          let tail ← atob rest
          some ((iw * 4 + ix / 16) :: (ix % 16 * 16 + iy / 4) :: (iy % 4 * 64 + iz) :: tail)
  | _ => none

/-- App.tsx arrayBufferToBase64: byte-to-code-unit loop followed by btoa. -/
def arrayBufferToBase64 (buffer : List Nat) : List Char := btoa buffer

/-- App.tsx base64ToArrayBuffer: atob followed by the charCodeAt loop.
none models the exception path of an invalid base64 payload. -/
def base64ToArrayBuffer (base64 : List Char) : Option (List Nat) := atob base64

/-!
### Transfer protocol data model (App.tsx)

The TypeScript TransferState field startTime is write-only in the source
(set from Date.now(), never read), so it is omitted here.  The chunks
array holds string | ArrayBuffer | null entries.
-/

def CHUNK_SIZE : Nat := 16 * 1024

structure FileMeta where
  fileId : String
  name : String
  size : Nat
  mimeType : String
  chunkSize : Nat
  totalChunks : Nat
deriving DecidableEq

structure ChunkMessage where
  fileId : String
  index : Nat
  data : List Char
deriving DecidableEq

structure AckMessage where
  fileId : String
  index : Nat
deriving DecidableEq

/-- RESUME_REQUEST.  In the source lastReceivedChunk is a JS number that a
receiver computes as cursor - 1; the claims only concern nonnegative
values (at least one chunk accepted), so it is modelled as a Nat. -/
structure ResumeRequest where
  fileId : String
  lastReceivedChunk : Nat
deriving DecidableEq

inductive DCMessage where
  | fileMeta (m : FileMeta)
  | fileChunk (c : ChunkMessage)
  | chunkAck (a : AckMessage)
  | resumeReq (r : ResumeRequest)
deriving DecidableEq

/-- An entry of TransferState.chunks: string | ArrayBuffer (null is
modelled by wrapping entries in Option). -/
inductive ChunkData where
  | str (s : List Char)
  | buf (b : List Nat)
deriving DecidableEq

structure TransferState where
  fileId : String
  fileName : String
  fileSize : Nat
  totalChunks : Nat
  chunks : List (Option ChunkData)
  currentChunkIndex : Nat
deriving DecidableEq

/-- The chunk slices produced by the for-loop in handleFileSelect:
totalChunks = Math.ceil(byteLength / CHUNK_SIZE) (in Nat arithmetic
(len + CHUNK_SIZE - 1) / CHUNK_SIZE), chunk i = buffer.slice(i*C, min((i+1)*C, len)). -/
def chunksOf (buffer : List Nat) : List (List Nat) :=
  (List.range ((buffer.length + CHUNK_SIZE - 1) / CHUNK_SIZE)).map
    fun i => (buffer.drop (i * CHUNK_SIZE)).take CHUNK_SIZE

/-- The FILE_META message assembled in handleFileSelect. -/
def fileMetaOf (fid name mime : String) (buffer : List Nat) : FileMeta :=
  { fileId := fid, name := name, size := buffer.length, mimeType := mime,
    chunkSize := CHUNK_SIZE,
    totalChunks := (buffer.length + CHUNK_SIZE - 1) / CHUNK_SIZE }

/-- The sender-side TransferState initialised by handleFileSelect. -/
def prepareTransfer (fid name : String) (buffer : List Nat) : TransferState :=
  { fileId := fid, fileName := name, fileSize := buffer.length,
    totalChunks := (buffer.length + CHUNK_SIZE - 1) / CHUNK_SIZE,
    chunks := (chunksOf buffer).map (fun ch => some (ChunkData.str (arrayBufferToBase64 ch))),
    currentChunkIndex := 0 }

/-- App.tsx sendNextChunk.  Returns the updated transferRef plus the list
of FILE_CHUNK messages pushed onto the data channel (empty or a
singleton).  The completion branch empties the chunks array; the
memory-optimisation line nulls the previously acknowledged chunk; the
defensive missing-chunk branch (JS falsy check on chunkData, i.e. null,
undefined, a non-string entry, or the empty string) sends nothing. -/
def sendNextChunk : Option TransferState → Option TransferState × List ChunkMessage
  | none => (none, [])
  | some tr =>
    if tr.currentChunkIndex ≥ tr.totalChunks then
      (some { tr with chunks := [] }, [])
    else
      let chunkIndex := tr.currentChunkIndex
      let chunks1 := if chunkIndex > 0 then tr.chunks.set (chunkIndex - 1) none else tr.chunks
      match chunks1.getD chunkIndex none with
      | some (ChunkData.str d) =>
          if d.isEmpty then (some { tr with chunks := chunks1 }, [])
          else (some { tr with chunks := chunks1 },
                [{ fileId := tr.fileId, index := chunkIndex, data := d }])
      | _ => (some { tr with chunks := chunks1 }, [])

def chunkBytes : Option ChunkData → List Nat
  | some (ChunkData.buf b) => b
  | _ => []

/-- The Blob assembled on completion from transfer.chunks (the receiver
only ever pushes ArrayBuffer entries, which chunkBytes extracts). -/
def assembleChunks (chunks : List (Option ChunkData)) : List Nat :=
  (chunks.map chunkBytes).flatten

structure HandlerResult where
  state : Option TransferState
  sent : List DCMessage
  delivered : Option (List Nat)
deriving DecidableEq

/-- App.tsx handleIncomingData: dispatch on the parsed message type
against the single transferRef.  sent collects the messages pushed onto
the data channel, delivered the byte sequence handed to the download
collaborator on completion. -/
def handleIncomingData (t : Option TransferState) : DCMessage → HandlerResult
  | DCMessage.chunkAck a =>
    match t with
    | some tr =>
      if tr.fileId = a.fileId then
        if a.index = tr.currentChunkIndex then
          let r := sendNextChunk (some { tr with currentChunkIndex := tr.currentChunkIndex + 1 })
          { state := r.1, sent := r.2.map DCMessage.fileChunk, delivered := none }
        else { state := some tr, sent := [], delivered := none }
      else { state := some tr, sent := [], delivered := none }
    | none => { state := none, sent := [], delivered := none }
  | DCMessage.resumeReq rq =>
    match t with
    | some tr =>
      if tr.fileId = rq.fileId then
        let r := sendNextChunk (some { tr with currentChunkIndex := rq.lastReceivedChunk + 1 })
        { state := r.1, sent := r.2.map DCMessage.fileChunk, delivered := none }
      else { state := some tr, sent := [], delivered := none }
    | none => { state := none, sent := [], delivered := none }
  | DCMessage.fileMeta m =>
    match t with
    | some tr => { state := some tr, sent := [], delivered := none }
    | none =>
      { state := some { fileId := m.fileId, fileName := m.name, fileSize := m.size,
                        totalChunks := m.totalChunks, chunks := [], currentChunkIndex := 0 },
        sent := [], delivered := none }
  | DCMessage.fileChunk c =>
    match t with
    | some tr =>
      if tr.fileId = c.fileId then
        if c.index = tr.currentChunkIndex then
          match base64ToArrayBuffer c.data with
          | some buffer =>
            let tr2 : TransferState :=
              { tr with chunks := tr.chunks ++ [some (ChunkData.buf buffer)],
                        currentChunkIndex := tr.currentChunkIndex + 1 }
            if tr2.currentChunkIndex ≥ tr2.totalChunks then
              { state := none,
                sent := [DCMessage.chunkAck { fileId := tr.fileId, index := c.index }],
                delivered := some (assembleChunks tr2.chunks) }
            else
              { state := some tr2,
                sent := [DCMessage.chunkAck { fileId := tr.fileId, index := c.index }],
                delivered := none }
          | none => { state := some tr, sent := [], delivered := none }
        else { state := some tr, sent := [], delivered := none }
      else { state := some tr, sent := [], delivered := none }
    | none => { state := none, sent := [], delivered := none }

/-- The sender branch of App.tsx handleResume: retry the current
not-yet-acknowledged chunk by calling sendNextChunk again. -/
def handleResumeSenderRole (t : Option TransferState) : Option TransferState × List ChunkMessage :=
  sendNextChunk t

/-- The ordered FILE_CHUNK messages carrying the given chunk payloads,
starting at the given index (what the sender emits chunk by chunk). -/
def chunkMsgs (fid : String) (start : Nat) : List (List Nat) → List DCMessage
  | [] => []
  | b :: bs =>
    DCMessage.fileChunk { fileId := fid, index := start, data := arrayBufferToBase64 b } ::
      chunkMsgs fid (start + 1) bs

/-- Receiver run: fold handleIncomingData over a message list, collecting
every byte sequence handed to the download collaborator. -/
def runReceiver : Option TransferState → List DCMessage → Option TransferState × List (List Nat)
  | t, [] => (t, [])
  | t, m :: ms =>
    let r := handleIncomingData t m
    let rest := runReceiver r.state ms
    (rest.1, r.delivered.toList ++ rest.2)

/-- One observable event in a sender run: a message received from, or
pushed onto, the data channel. -/
inductive SEvent where
  | recv (m : DCMessage)
  | send (m : DCMessage)
deriving DecidableEq

/-- The event trace of the sender processing a list of incoming
CHUNK_ACK messages: each reception is followed by the chunk messages it
triggered. -/
def senderTrace : Option TransferState → List AckMessage → List SEvent
  | _, [] => []
  | t, a :: rest =>
    let r := handleIncomingData t (DCMessage.chunkAck a)
    SEvent.recv (DCMessage.chunkAck a) :: (r.sent.map SEvent.send ++ senderTrace r.state rest)

/-- A full sender run: handleFileSelect's initial sendNextChunk call
followed by processing the incoming acknowledgments in order. -/
def senderRun (t0 : TransferState) (acks : List AckMessage) : List SEvent :=
  ((sendNextChunk (some t0)).2.map (fun c => SEvent.send (DCMessage.fileChunk c))) ++
    senderTrace (sendNextChunk (some t0)).1 acks

/-!
### Signaling backend (backend/src/index.ts)

Connection handles (WebSocket objects) are naturals.  The two Map
objects (rooms, socketToRoom) are association lists; getKey / setKey /
eraseKey give the Map.get / Map.set / Map.delete semantics used by the
source.  The Room field createdAt is write-only in the source and is
omitted.  sendMessage's readyState guard is a transport detail: the sent
list records each sendMessage invocation.
-/

structure Room where
  roomId : String
  sender : Nat
  receiver : Option Nat
deriving DecidableEq

def getKey {α β : Type} [BEq α] (k : α) (m : List (α × β)) : Option β := m.lookup k

def eraseKey {α β : Type} [BEq α] (k : α) (m : List (α × β)) : List (α × β) :=
  m.filter (fun p => p.1 != k)

def setKey {α β : Type} [BEq α] (k : α) (v : β) (m : List (α × β)) : List (α × β) :=
  (k, v) :: eraseKey k m

structure ServerState where
  rooms : List (String × Room)
  socketToRoom : List (Nat × String)
deriving DecidableEq

inductive ServerMsg where
  | roomCreated (roomId : String)
  | roomJoined (roomId : String)
  | peerJoined (roomId : String)
  | peerDisconnected (message : String)
  | error (message : String)
deriving DecidableEq

/-- The fixed room-code alphabet of generateRoomId (confusing characters
I, O, 0, 1 excluded). -/
def roomIdChars : List Char := "ABCDEFGHJKLMNPQRSTUVWXYZ23456789".toList

/-- One candidate draw of generateRoomId: four uniform picks from the
32-character alphabet (Math.floor(Math.random() * chars.length) always
lands in [0, 32)). -/
def genCandidate (p : Fin 32 × Fin 32 × Fin 32 × Fin 32) : String :=
  ⟨[roomIdChars.getD p.1 'A', roomIdChars.getD p.2.1 'A',
    roomIdChars.getD p.2.2.1 'A', roomIdChars.getD p.2.2.2 'A']⟩

/-- backend generateRoomId: the do-while loop draws candidates until one
is not a live room code.  The loop's randomness is supplied as an
explicit list of draws; none models an exhausted supply (the JS loop
would keep drawing). -/
def generateRoomId (rooms : List (String × Room)) :
    List (Fin 32 × Fin 32 × Fin 32 × Fin 32) → Option String
  | [] => none
  | p :: rest =>
    let roomId := genCandidate p
    if (getKey roomId rooms).isSome then generateRoomId rooms rest else some roomId

/-- backend CREATE_ROOM handler. -/
def createRoom (S : ServerState) (ws : Nat)
    (draws : List (Fin 32 × Fin 32 × Fin 32 × Fin 32)) :
    ServerState × List (Nat × ServerMsg) :=
  match generateRoomId S.rooms draws with
  | none => (S, [])
  | some roomId =>
    ({ rooms := setKey roomId { roomId := roomId, sender := ws, receiver := none } S.rooms,
       socketToRoom := setKey ws roomId S.socketToRoom },
     [(ws, ServerMsg.roomCreated roomId)])

/-- The JS String.prototype.toUpperCase call on the supplied room code,
restricted to ASCII (room codes only ever contain ASCII). -/
def toUpperCase (s : String) : String := String.mk (s.data.map Char.toUpper)

/-- backend JOIN_ROOM handler.  The roomId argument is none when the
message carried no (or an empty, hence JS-falsy) room code. -/
def joinRoom (S : ServerState) (ws : Nat) (roomId : Option String) :
    ServerState × List (Nat × ServerMsg) :=
  match roomId with
  | none => (S, [(ws, ServerMsg.error "Room code is required")])
  | some rid =>
    if rid = "" then (S, [(ws, ServerMsg.error "Room code is required")])
    else
      match getKey (toUpperCase rid) S.rooms with
      | none => (S, [(ws, ServerMsg.error "Room not found")])
      | some room =>
        if room.receiver.isSome then (S, [(ws, ServerMsg.error "Room is full")])
        else if room.sender = ws then
          (S, [(ws, ServerMsg.error "Cannot join your own room")])
        else
          ({ rooms := setKey (toUpperCase rid) { room with receiver := some ws } S.rooms,
             socketToRoom := setKey ws (toUpperCase rid) S.socketToRoom },
           [(ws, ServerMsg.roomJoined room.roomId),
            (room.sender, ServerMsg.peerJoined room.roomId)])

/-- backend ws.on close handler. -/
def handleClose (S : ServerState) (ws : Nat) : ServerState × List (Nat × ServerMsg) :=
  match getKey ws S.socketToRoom with
  | none => (S, [])
  | some roomId =>
    match getKey roomId S.rooms with
    | none => ({ S with socketToRoom := eraseKey ws S.socketToRoom }, [])
    | some room =>
      if room.sender = ws then
        match room.receiver with
        | some r =>
          ({ rooms := eraseKey roomId S.rooms,
             socketToRoom := eraseKey ws (eraseKey r S.socketToRoom) },
           [(r, ServerMsg.peerDisconnected "Host disconnected")])
        | none =>
          ({ rooms := eraseKey roomId S.rooms,
             socketToRoom := eraseKey ws S.socketToRoom }, [])
      else if room.receiver = some ws then
        ({ rooms := setKey roomId { room with receiver := none } S.rooms,
           socketToRoom := eraseKey ws S.socketToRoom },
         [(room.sender, ServerMsg.peerDisconnected "Peer disconnected")])
      else ({ S with socketToRoom := eraseKey ws S.socketToRoom }, [])

/-!
### ICE candidate buffering (App.tsx handleICECandidate / handleRTCOffer / handleRTCAnswer)

remoteDescSet holds when the local RTCPeerConnection exists and carries a
remote description.  addedCandidates logs the pc.addIceCandidate calls in
order.  Candidate payloads are opaque strings.
-/

structure IceState where
  remoteDescSet : Bool
  pendingCandidates : List String
  addedCandidates : List String
deriving DecidableEq

/-- App.tsx handleICECandidate: buffer when no remote description is set,
add immediately otherwise. -/
def handleICECandidate (s : IceState) (c : String) : IceState :=
  if s.remoteDescSet then { s with addedCandidates := s.addedCandidates ++ [c] }
  else { s with pendingCandidates := s.pendingCandidates ++ [c] }

/-- The flush performed by handleRTCOffer / handleRTCAnswer right after
setRemoteDescription: add every pending candidate in receipt order, then
clear the buffer. -/
def handleRemoteDescription (s : IceState) : IceState :=
  { remoteDescSet := true, pendingCandidates := [],
    addedCandidates := s.addedCandidates ++ s.pendingCandidates }

inductive IceEvent where
  | candidate (c : String)
  | remoteDescription
deriving DecidableEq

def iceStep (s : IceState) : IceEvent → IceState
  | IceEvent.candidate c => handleICECandidate s c
  | IceEvent.remoteDescription => handleRemoteDescription s

def iceRun (s : IceState) (es : List IceEvent) : IceState := es.foldl iceStep s

/-!
### Lemmas: base64 round trip
-/

lemma b64Idx_b64Char : ∀ i, i < 64 → b64Idx (b64Char i) = some i := by decide

lemma b64Char_mem : ∀ i, i < 64 → b64Char i ∈ b64Chars := by decide

lemma b64Char_ne_pad (i : Nat) (h : i < 64) : b64Char i ≠ '=' := by
  have hall : ∀ c ∈ b64Chars, c ≠ '=' := by decide
  exact hall _ (b64Char_mem i h)

lemma atob_btoa : ∀ l : List Nat, (∀ x ∈ l, x < 256) → atob (btoa l) = some l := by
  intro l
  induction l using btoa.induct with
  | case1 => intro _; rfl
  | case2 a =>
    intro h
    have ha : a < 256 := h a (by simp)
    have h1 : a / 4 < 64 := by omega
    have h2 : a % 4 * 16 < 64 := by omega
    simp [btoa, atob, b64Idx_b64Char _ h1, b64Idx_b64Char _ h2]
    omega
  | case3 a b =>
    intro h
    have ha : a < 256 := h a (by simp)
    have hb : b < 256 := h b (by simp)
    have h1 : a / 4 < 64 := by omega
    have h2 : a % 4 * 16 + b / 16 < 64 := by omega
    have h3 : b % 16 * 4 < 64 := by omega
    simp [btoa, atob, b64Idx_b64Char _ h1, b64Idx_b64Char _ h2, b64Idx_b64Char _ h3,
          b64Char_ne_pad _ h3]
    omega
  | case4 a b c rest ih =>
    intro h
    have ha : a < 256 := h a (by simp)
    have hb : b < 256 := h b (by simp)
    have hc : c < 256 := h c (by simp)
    have hrest : ∀ x ∈ rest, x < 256 := fun x hx => h x (by simp [hx])
    have h1 : a / 4 < 64 := by omega
    have h2 : a % 4 * 16 + b / 16 < 64 := by omega
    have h3 : b % 16 * 4 + c / 64 < 64 := by omega
    have h4 : c % 64 < 64 := by omega
    simp [btoa, atob, b64Idx_b64Char _ h1, b64Idx_b64Char _ h2, b64Idx_b64Char _ h3,
          b64Idx_b64Char _ h4, b64Char_ne_pad _ h3, b64Char_ne_pad _ h4, ih hrest]
    omega

/-!
### Lemmas: chunking
-/

lemma CHUNK_SIZE_eq : CHUNK_SIZE = 16384 := rfl

lemma chunksOf_cons (l : List Nat) (h : l ≠ []) :
    chunksOf l = l.take CHUNK_SIZE :: chunksOf (l.drop CHUNK_SIZE) := by
  have hlen : 0 < l.length := List.length_pos.mpr h
  have hcount : (l.length + CHUNK_SIZE - 1) / CHUNK_SIZE
      = ((l.drop CHUNK_SIZE).length + CHUNK_SIZE - 1) / CHUNK_SIZE + 1 := by
    rw [List.length_drop, CHUNK_SIZE_eq]
    omega
  unfold chunksOf
  rw [hcount, List.range_succ_eq_map, List.map_cons]
  refine congrArg₂ List.cons (by simp) ?_
  rw [List.map_map]
  refine List.map_congr_left fun i _ => ?_
  simp only [Function.comp_apply]
  have harith : (i + 1) * CHUNK_SIZE = CHUNK_SIZE + i * CHUNK_SIZE := by ring
  rw [List.drop_drop, harith]

lemma chunksOf_flatten_aux : ∀ (n : Nat) (l : List Nat),
    l.length ≤ n → (chunksOf l).flatten = l := by
  intro n
  induction n with
  | zero =>
    intro l hle
    have hl : l = [] := List.eq_nil_of_length_eq_zero (Nat.le_zero.mp hle)
    subst hl
    rfl
  | succ n ih =>
    intro l hle
    by_cases hl : l = []
    · subst hl; rfl
    · have hlen : 0 < l.length := List.length_pos.mpr hl
      have hd : (l.drop CHUNK_SIZE).length ≤ n := by
        rw [List.length_drop, CHUNK_SIZE_eq]
        omega
      rw [chunksOf_cons l hl, List.flatten_cons, ih _ hd, List.take_append_drop]

lemma chunksOf_flatten (l : List Nat) : (chunksOf l).flatten = l :=
  chunksOf_flatten_aux l.length l le_rfl

lemma chunksOf_bytes {l : List Nat} (h : ∀ x ∈ l, x < 256) :
    ∀ b ∈ chunksOf l, ∀ x ∈ b, x < 256 := by
  intro b hb x hx
  unfold chunksOf at hb
  simp only [List.mem_map, List.mem_range] at hb
  obtain ⟨i, _, rfl⟩ := hb
  exact h x (List.mem_of_mem_drop (List.mem_of_mem_take hx))

/-!
### Lemmas: the receiver accepting an in-order chunk stream
-/

lemma handle_matching_chunk (tr : TransferState) (d : List Char) (bb : List Nat)
    (hdec : base64ToArrayBuffer d = some bb) :
    handleIncomingData (some tr) (DCMessage.fileChunk
        { fileId := tr.fileId, index := tr.currentChunkIndex, data := d }) =
      if tr.totalChunks ≤ tr.currentChunkIndex + 1 then
        { state := none,
          sent := [DCMessage.chunkAck { fileId := tr.fileId, index := tr.currentChunkIndex }],
          delivered := some (assembleChunks (tr.chunks ++ [some (ChunkData.buf bb)])) }
      else
        { state := some { tr with chunks := tr.chunks ++ [some (ChunkData.buf bb)],
                                  currentChunkIndex := tr.currentChunkIndex + 1 },
          sent := [DCMessage.chunkAck { fileId := tr.fileId, index := tr.currentChunkIndex }],
          delivered := none } := by
  simp [handleIncomingData, hdec]

lemma runReceiver_chunkMsgs :
    ∀ (bufs : List (List Nat)) (tr : TransferState),
      tr.totalChunks = tr.currentChunkIndex + bufs.length →
      (∀ b ∈ bufs, ∀ x ∈ b, x < 256) →
      runReceiver (some tr) (chunkMsgs tr.fileId tr.currentChunkIndex bufs) =
        if bufs.isEmpty then (some tr, [])
        else (none,
          [assembleChunks (tr.chunks ++ bufs.map (fun b => some (ChunkData.buf b)))]) := by
  intro bufs
  induction bufs with
  | nil =>
    intro tr htot hb
    simp [chunkMsgs, runReceiver]
  | cons b bs ih =>
    intro tr htot hb
    have hdec : base64ToArrayBuffer (arrayBufferToBase64 b) = some b :=
      atob_btoa b (hb b (by simp))
    rw [chunkMsgs, runReceiver]
    rw [handle_matching_chunk tr _ b hdec]
    cases bs with
    | nil =>
      have hcomp : tr.totalChunks ≤ tr.currentChunkIndex + 1 := by
        simp at htot
        omega
      rw [if_pos hcomp]
      simp [chunkMsgs, runReceiver]
    | cons b2 bs2 =>
      have hcomp : ¬ tr.totalChunks ≤ tr.currentChunkIndex + 1 := by
        simp at htot
        omega
      rw [if_neg hcomp]
      have hrec := ih { tr with chunks := tr.chunks ++ [some (ChunkData.buf b)],
                                currentChunkIndex := tr.currentChunkIndex + 1 }
        (by simp at htot ⊢; omega)
        (fun x hx => hb x (List.mem_cons_of_mem _ hx))
      simp only at hrec
      simp only [List.isEmpty_cons] at hrec ⊢
      simp [hrec, List.append_assoc]

/-- Claim C1: for an arbitrary byte sequence split into chunks of size
CHUNK_SIZE = 16384 (last chunk may be shorter, totalChunks =
ceil(length / CHUNK_SIZE)), base64-encoding each chunk on the sender,
then accepting all chunks in order on the receiver (base64-decoding and
appending each) and concatenating them reproduces the original byte
sequence exactly, including the boundary cases of zero-length input
(0 chunks) and an input whose length is an exact multiple of CHUNK_SIZE. -/
theorem c1_round_trip (fid name mime : String) (buffer : List Nat)
    (hbytes : ∀ x ∈ buffer, x < 256) :
    ((runReceiver
        (handleIncomingData none (DCMessage.fileMeta (fileMetaOf fid name mime buffer))).state
        (chunkMsgs fid 0 (chunksOf buffer))).2).flatten = buffer := by
  by_cases hbuf : buffer = []
  · subst hbuf
    rfl
  · have hrun := runReceiver_chunkMsgs (chunksOf buffer)
      { fileId := fid, fileName := name, fileSize := buffer.length,
        totalChunks := (buffer.length + CHUNK_SIZE - 1) / CHUNK_SIZE,
        chunks := [], currentChunkIndex := 0 }
      (by simp [chunksOf])
      (chunksOf_bytes hbytes)
    have hne : (chunksOf buffer).isEmpty = false := by
      rw [chunksOf_cons _ hbuf]
      rfl
    simp only [hne, Bool.false_eq_true, if_false, List.nil_append] at hrun
    simp only [handleIncomingData, fileMetaOf]
    rw [hrun]
    simp [assembleChunks, chunkBytes, List.map_map, Function.comp_def]
    exact chunksOf_flatten buffer

theorem c1_round_trip_witness :
    ((runReceiver
        (handleIncomingData none
          (DCMessage.fileMeta (fileMetaOf "f1" "hello.txt" "text/plain" [72, 105, 33]))).state
        (chunkMsgs "f1" 0 (chunksOf [72, 105, 33]))).2).flatten = [72, 105, 33] :=
  c1_round_trip "f1" "hello.txt" "text/plain" [72, 105, 33] (by decide)

/-- Claim C3: for every incoming FILE_CHUNK matching the receiver's
active session (and carrying decodable base64 data), the receiver
accepts the chunk — emitting a CHUNK_ACK for that index — if and only if
its index equals the receiver's current cursor; on acceptance the
decoded payload is appended and the cursor incremented by exactly 1; on
rejection the state is unchanged and no acknowledgment is sent; hence
the receiver's cursor is monotonically non-decreasing. -/
theorem c3_receiver_accept_iff (tr : TransferState) (c : ChunkMessage) (bb : List Nat)
    (hfid : tr.fileId = c.fileId)
    (hdec : base64ToArrayBuffer c.data = some bb) :
    ((handleIncomingData (some tr) (DCMessage.fileChunk c)).sent ≠ [] ↔
        c.index = tr.currentChunkIndex)
    ∧ (c.index = tr.currentChunkIndex →
        (handleIncomingData (some tr) (DCMessage.fileChunk c)).sent =
          [DCMessage.chunkAck { fileId := tr.fileId, index := c.index }]
        ∧ ∀ tr2, (handleIncomingData (some tr) (DCMessage.fileChunk c)).state = some tr2 →
            tr2.chunks = tr.chunks ++ [some (ChunkData.buf bb)]
            ∧ tr2.currentChunkIndex = tr.currentChunkIndex + 1)
    ∧ (c.index ≠ tr.currentChunkIndex →
        handleIncomingData (some tr) (DCMessage.fileChunk c) =
          { state := some tr, sent := [], delivered := none })
    ∧ (∀ tr2, (handleIncomingData (some tr) (DCMessage.fileChunk c)).state = some tr2 →
        tr.currentChunkIndex ≤ tr2.currentChunkIndex) := by
  obtain ⟨cf, ci, cd⟩ := c
  simp only at hfid hdec ⊢
  subst hfid
  by_cases hidx : ci = tr.currentChunkIndex
  · subst hidx
    rw [handle_matching_chunk tr cd bb hdec]
    by_cases hcomp : tr.totalChunks ≤ tr.currentChunkIndex + 1
    · rw [if_pos hcomp]
      exact ⟨by simp, fun _ => ⟨rfl, fun tr2 h => by simp at h⟩,
             fun h => absurd rfl h, fun tr2 h => by simp at h⟩
    · rw [if_neg hcomp]
      refine ⟨by simp, fun _ => ⟨rfl, fun tr2 h => ?_⟩, fun h => absurd rfl h, fun tr2 h => ?_⟩
      · obtain rfl : _ = tr2 := Option.some_injective _ h
        exact ⟨rfl, rfl⟩
      · obtain rfl : _ = tr2 := Option.some_injective _ h
        exact Nat.le_succ _
  · have heq : handleIncomingData (some tr)
        (DCMessage.fileChunk { fileId := tr.fileId, index := ci, data := cd }) =
        { state := some tr, sent := [], delivered := none } := by
      simp [handleIncomingData, hidx]
    rw [heq]
    exact ⟨by simp [hidx], fun h => absurd h hidx, fun _ => rfl,
           fun tr2 h => by obtain rfl : _ = tr2 := Option.some_injective _ h; exact le_rfl⟩

theorem c3_receiver_accept_iff_witness :
    ((handleIncomingData
        (some { fileId := "f", fileName := "a.bin", fileSize := 6, totalChunks := 2,
                chunks := [], currentChunkIndex := 0 })
        (DCMessage.fileChunk { fileId := "f", index := 0, data := ['Q', 'U', 'J', 'D'] })).sent ≠ []
      ↔ (0 : Nat) = 0)
    ∧ ((0 : Nat) = 0 →
        (handleIncomingData
          (some { fileId := "f", fileName := "a.bin", fileSize := 6, totalChunks := 2,
                  chunks := [], currentChunkIndex := 0 })
          (DCMessage.fileChunk { fileId := "f", index := 0, data := ['Q', 'U', 'J', 'D'] })).sent =
          [DCMessage.chunkAck { fileId := "f", index := 0 }]
        ∧ ∀ tr2, (handleIncomingData
            (some { fileId := "f", fileName := "a.bin", fileSize := 6, totalChunks := 2,
                    chunks := [], currentChunkIndex := 0 })
            (DCMessage.fileChunk { fileId := "f", index := 0, data := ['Q', 'U', 'J', 'D'] })).state
              = some tr2 →
            tr2.chunks = [] ++ [some (ChunkData.buf [65, 66, 67])]
            ∧ tr2.currentChunkIndex = 0 + 1)
    ∧ ((0 : Nat) ≠ 0 →
        handleIncomingData
          (some { fileId := "f", fileName := "a.bin", fileSize := 6, totalChunks := 2,
                  chunks := [], currentChunkIndex := 0 })
          (DCMessage.fileChunk { fileId := "f", index := 0, data := ['Q', 'U', 'J', 'D'] }) =
          { state := some { fileId := "f", fileName := "a.bin", fileSize := 6, totalChunks := 2,
                            chunks := [], currentChunkIndex := 0 },
            sent := [], delivered := none })
    ∧ (∀ tr2, (handleIncomingData
          (some { fileId := "f", fileName := "a.bin", fileSize := 6, totalChunks := 2,
                  chunks := [], currentChunkIndex := 0 })
          (DCMessage.fileChunk { fileId := "f", index := 0, data := ['Q', 'U', 'J', 'D'] })).state
            = some tr2 →
        (0 : Nat) ≤ tr2.currentChunkIndex) :=
  c3_receiver_accept_iff
    { fileId := "f", fileName := "a.bin", fileSize := 6, totalChunks := 2,
      chunks := [], currentChunkIndex := 0 }
    { fileId := "f", index := 0, data := ['Q', 'U', 'J', 'D'] }
    [65, 66, 67] rfl (by decide)

/-- Claim C8: a receiver already holding an active transfer session
ignores an incoming FILE_META message entirely — no new session is
created, the existing session (fileId, cursor, buffered chunks) is
unchanged and nothing is sent; the Option-typed transferRef means at
most one active session exists per role at a time. -/
theorem c8_meta_busy_reject (tr : TransferState) (m : FileMeta) :
    handleIncomingData (some tr) (DCMessage.fileMeta m) =
      { state := some tr, sent := [], delivered := none } := by
  simp [handleIncomingData]

/-- Claim C10: a CHUNK_ACK whose fileId differs from the sender's active
session or whose index differs from the cursor is ignored (cursor
unchanged, nothing transmitted), as is any CHUNK_ACK with no active
session; symmetrically a FILE_CHUNK whose fileId differs from the
receiver's session, or arriving with no session, is ignored with no
state change and no acknowledgment. -/
theorem c10_stale_messages_ignored (t : Option TransferState) (a : AckMessage) (c : ChunkMessage) :
    (∀ tr, t = some tr → (tr.fileId ≠ a.fileId ∨ a.index ≠ tr.currentChunkIndex) →
        handleIncomingData t (DCMessage.chunkAck a) = { state := t, sent := [], delivered := none })
    ∧ handleIncomingData none (DCMessage.chunkAck a) =
        { state := none, sent := [], delivered := none }
    ∧ (∀ tr, t = some tr → tr.fileId ≠ c.fileId →
        handleIncomingData t (DCMessage.fileChunk c) = { state := t, sent := [], delivered := none })
    ∧ handleIncomingData none (DCMessage.fileChunk c) =
        { state := none, sent := [], delivered := none } := by
  refine ⟨?_, rfl, ?_, rfl⟩
  · rintro tr rfl h
    rcases h with h | h
    · simp [handleIncomingData, h]
    · by_cases hf : tr.fileId = a.fileId
      · simp [handleIncomingData, hf, h]
      · simp [handleIncomingData, hf]
  · rintro tr rfl h
    simp [handleIncomingData, h]

theorem c10_stale_messages_ignored_witness :
    handleIncomingData
        (some { fileId := "f", fileName := "a.bin", fileSize := 6, totalChunks := 2,
                chunks := [], currentChunkIndex := 1 })
        (DCMessage.chunkAck { fileId := "f", index := 0 }) =
      { state := some { fileId := "f", fileName := "a.bin", fileSize := 6, totalChunks := 2,
                        chunks := [], currentChunkIndex := 1 },
        sent := [], delivered := none }
    ∧ handleIncomingData
        (some { fileId := "f", fileName := "a.bin", fileSize := 6, totalChunks := 2,
                chunks := [], currentChunkIndex := 1 })
        (DCMessage.fileChunk { fileId := "g", index := 1, data := ['Q', 'U', 'J', 'D'] }) =
      { state := some { fileId := "f", fileName := "a.bin", fileSize := 6, totalChunks := 2,
                        chunks := [], currentChunkIndex := 1 },
        sent := [], delivered := none } :=
  ⟨(c10_stale_messages_ignored
      (some { fileId := "f", fileName := "a.bin", fileSize := 6, totalChunks := 2,
              chunks := [], currentChunkIndex := 1 })
      { fileId := "f", index := 0 }
      { fileId := "g", index := 1, data := ['Q', 'U', 'J', 'D'] }).1 _ rfl
        (Or.inr (by decide)),
   (c10_stale_messages_ignored
      (some { fileId := "f", fileName := "a.bin", fileSize := 6, totalChunks := 2,
              chunks := [], currentChunkIndex := 1 })
      { fileId := "f", index := 0 }
      { fileId := "g", index := 1, data := ['Q', 'U', 'J', 'D'] }).2.2.1 _ rfl (by decide)⟩

/-!
### Lemmas: sender stop-and-wait discipline
-/

lemma sendNextChunk_sent (t : Option TransferState) :
    ∀ cm ∈ (sendNextChunk t).2, ∃ tr, t = some tr ∧
      cm.index = tr.currentChunkIndex ∧ cm.fileId = tr.fileId := by
  intro cm hcm
  cases t with
  | none => simp [sendNextChunk] at hcm
  | some tr =>
    refine ⟨tr, rfl, ?_⟩
    simp only [sendNextChunk] at hcm
    split at hcm
    · simp at hcm
    · split at hcm
      · split at hcm
        · simp at hcm
        · simp at hcm
          subst hcm
          exact ⟨rfl, rfl⟩
      · simp at hcm

lemma handleIncomingData_ack_sent (t : Option TransferState) (a : AckMessage) :
    ∀ m ∈ (handleIncomingData t (DCMessage.chunkAck a)).sent,
      ∃ cm, m = DCMessage.fileChunk cm ∧ cm.index = a.index + 1 ∧ cm.fileId = a.fileId := by
  intro m hm
  cases t with
  | none => simp [handleIncomingData] at hm
  | some tr =>
    by_cases hf : tr.fileId = a.fileId
    · by_cases hi : a.index = tr.currentChunkIndex
      · simp only [handleIncomingData, hf, hi, if_pos, if_true, List.mem_map] at hm
        obtain ⟨cm, hcm, rfl⟩ := hm
        obtain ⟨tr2, heq, hidx, hfid⟩ := sendNextChunk_sent _ cm hcm
        obtain rfl : _ = tr2 := Option.some_injective _ heq
        refine ⟨cm, rfl, ?_, ?_⟩
        · simp at hidx
          omega
        · simp at hfid
          exact hfid
      · simp [handleIncomingData, hf, hi] at hm
    · simp [handleIncomingData, hf] at hm

lemma senderTrace_sound :
    ∀ (acks : List AckMessage) (t : Option TransferState) (u v : List SEvent) (m : ChunkMessage),
      senderTrace t acks = u ++ SEvent.send (DCMessage.fileChunk m) :: v →
      ∃ b, SEvent.recv (DCMessage.chunkAck b) ∈ u ∧ b.index + 1 = m.index
        ∧ b.fileId = m.fileId := by
  intro acks
  induction acks with
  | nil =>
    intro t u v m h
    simp only [senderTrace] at h
    exact absurd h.symm (by simp)
  | cons a rest ih =>
    intro t u v m h
    simp only [senderTrace] at h
    cases u with
    | nil =>
      simp at h
    | cons e u2 =>
      rw [List.cons_append] at h
      injection h with h1 h2
      subst h1
      rcases List.append_eq_append_iff.mp h2 with ⟨w, hw1, hw2⟩ | ⟨w, hw1, hw2⟩
      · obtain ⟨b, hb, hbi, hbf⟩ := ih _ w v m hw2
        exact ⟨b, by simp [hw1, hb], hbi, hbf⟩
      · cases w with
        | nil =>
          simp only [List.nil_append] at hw2
          obtain ⟨b, hb, _, _⟩ := ih _ [] v m hw2.symm
          exact absurd hb (List.not_mem_nil _)
        | cons x w2 =>
          rw [List.cons_append] at hw2
          injection hw2 with hx _
          have hxmem : x ∈ (handleIncomingData t (DCMessage.chunkAck a)).sent.map SEvent.send := by
            rw [hw1]
            exact List.mem_append_right _ (List.mem_cons_self _ _)
          simp only [List.mem_map] at hxmem
          obtain ⟨dm, hdm, hsend⟩ := hxmem
          obtain ⟨cm, hcm, hcmi, hcmf⟩ := handleIncomingData_ack_sent t a dm hdm
          have hdm2 : dm = DCMessage.fileChunk m := by
            have h4 : SEvent.send dm = SEvent.send (DCMessage.fileChunk m) := by
              rw [hsend, ← hx]
            injection h4
          rw [hdm2] at hcm
          injection hcm with hmc
          refine ⟨a, List.mem_cons_self _ _, ?_, ?_⟩
          · rw [hmc]; exact hcmi.symm
          · rw [hmc]; exact hcmf.symm

lemma sendNextChunk_cursor (t : Option TransferState) :
    ∀ t2, (sendNextChunk t).1 = some t2 → ∃ tr, t = some tr ∧
      t2.currentChunkIndex = tr.currentChunkIndex := by
  intro t2 h
  cases t with
  | none => simp [sendNextChunk] at h
  | some tr =>
    refine ⟨tr, rfl, ?_⟩
    simp only [sendNextChunk] at h
    split at h
    · obtain rfl : _ = t2 := Option.some_injective _ h
      rfl
    · split at h
      · split at h
        · obtain rfl : _ = t2 := Option.some_injective _ h
          rfl
        · obtain rfl : _ = t2 := Option.some_injective _ h
          rfl
      · obtain rfl : _ = t2 := Option.some_injective _ h
        rfl

/-- Claim C2: in every sender run (the initial transmission of chunk 0
followed by processing incoming acknowledgments in order), a chunk with
index i + 1 is transmitted only after an acknowledgment with index i for
the same fileId was received earlier in the run — at most one
unacknowledged chunk in flight; and when the acknowledgment whose index
equals the sender cursor arrives, the sender releases the acknowledged
chunk's buffered payload (nulling its slot), increments the cursor, and
transmits the next chunk. -/
theorem c2_stop_and_wait (t0 : TransferState) (acks : List AckMessage)
    (tr : TransferState) (a : AckMessage) (d : List Char)
    (h0 : t0.currentChunkIndex = 0)
    (hfid : tr.fileId = a.fileId)
    (hidx : a.index = tr.currentChunkIndex)
    (hlt : tr.currentChunkIndex + 1 < tr.totalChunks)
    (hdata : (tr.chunks.set tr.currentChunkIndex none).getD (tr.currentChunkIndex + 1) none
      = some (ChunkData.str d))
    (hne : d ≠ []) :
    (∀ u v m, senderRun t0 acks = u ++ SEvent.send (DCMessage.fileChunk m) :: v →
        0 < m.index →
        ∃ b, SEvent.recv (DCMessage.chunkAck b) ∈ u ∧ b.index + 1 = m.index
          ∧ b.fileId = m.fileId)
    ∧ handleIncomingData (some tr) (DCMessage.chunkAck a) =
        { state := some { tr with chunks := tr.chunks.set tr.currentChunkIndex none,
                                  currentChunkIndex := tr.currentChunkIndex + 1 },
          sent := [DCMessage.fileChunk
            { fileId := tr.fileId, index := tr.currentChunkIndex + 1, data := d }],
          delivered := none } := by
  constructor
  · intro u v m h hm
    unfold senderRun at h
    rcases List.append_eq_append_iff.mp h with ⟨w, hw1, hw2⟩ | ⟨w, hw1, hw2⟩
    · obtain ⟨b, hb, hbi, hbf⟩ := senderTrace_sound acks _ w v m hw2
      exact ⟨b, by simp [hw1, hb], hbi, hbf⟩
    · cases w with
      | nil =>
        simp only [List.nil_append] at hw2
        obtain ⟨b, hb, _, _⟩ := senderTrace_sound acks _ [] v m hw2.symm
        exact absurd hb (List.not_mem_nil _)
      | cons x w2 =>
        rw [List.cons_append] at hw2
        injection hw2 with hx _
        have hxmem : x ∈ (sendNextChunk (some t0)).2.map
            (fun c => SEvent.send (DCMessage.fileChunk c)) := by
          rw [hw1]
          exact List.mem_append_right _ (List.mem_cons_self _ _)
        simp only [List.mem_map] at hxmem
        obtain ⟨cm, hcm, hsend⟩ := hxmem
        obtain ⟨tr1, heq, hi, _⟩ := sendNextChunk_sent _ cm hcm
        obtain rfl : _ = tr1 := Option.some_injective _ heq
        have hcmm : cm = m := by
          have h5 : SEvent.send (DCMessage.fileChunk cm)
              = SEvent.send (DCMessage.fileChunk m) := by
            rw [hsend, ← hx]
          injection h5 with h6
          injection h6
        rw [hcmm] at hi
        omega
  · have hdata2 : tr.chunks[tr.currentChunkIndex + 1]?.getD none
        = some (ChunkData.str d) := by
      rw [List.getD_eq_getElem?_getD, List.getElem?_set_ne (by omega)] at hdata
      exact hdata
    simp [handleIncomingData, sendNextChunk, hfid, hidx, Nat.not_le.mpr hlt, hdata2, hne]

theorem c2_stop_and_wait_witness :
    (∀ u v m, senderRun
        { fileId := "f", fileName := "a.bin", fileSize := 5, totalChunks := 3,
          chunks := [some (ChunkData.str ['Q', 'Q', '=', '=']),
                     some (ChunkData.str ['Q', 'g', '=', '=']),
                     some (ChunkData.str ['Q', 'w', '=', '='])],
          currentChunkIndex := 0 }
        [{ fileId := "f", index := 0 }] = u ++ SEvent.send (DCMessage.fileChunk m) :: v →
        0 < m.index →
        ∃ b, SEvent.recv (DCMessage.chunkAck b) ∈ u ∧ b.index + 1 = m.index
          ∧ b.fileId = m.fileId)
    ∧ handleIncomingData
        (some { fileId := "f", fileName := "a.bin", fileSize := 5, totalChunks := 3,
                chunks := [some (ChunkData.str ['Q', 'Q', '=', '=']),
                           some (ChunkData.str ['Q', 'g', '=', '=']),
                           some (ChunkData.str ['Q', 'w', '=', '='])],
                currentChunkIndex := 0 })
        (DCMessage.chunkAck { fileId := "f", index := 0 }) =
        { state := some
            { fileId := "f", fileName := "a.bin", fileSize := 5, totalChunks := 3,
              chunks := [some (ChunkData.str ['Q', 'Q', '=', '=']),
                         some (ChunkData.str ['Q', 'g', '=', '=']),
                         some (ChunkData.str ['Q', 'w', '=', '='])].set 0 none,
              currentChunkIndex := 0 + 1 },
          sent := [DCMessage.fileChunk
            { fileId := "f", index := 0 + 1, data := ['Q', 'g', '=', '='] }],
          delivered := none } :=
  c2_stop_and_wait
    { fileId := "f", fileName := "a.bin", fileSize := 5, totalChunks := 3,
      chunks := [some (ChunkData.str ['Q', 'Q', '=', '=']),
                 some (ChunkData.str ['Q', 'g', '=', '=']),
                 some (ChunkData.str ['Q', 'w', '=', '='])],
      currentChunkIndex := 0 }
    [{ fileId := "f", index := 0 }]
    { fileId := "f", fileName := "a.bin", fileSize := 5, totalChunks := 3,
      chunks := [some (ChunkData.str ['Q', 'Q', '=', '=']),
                 some (ChunkData.str ['Q', 'g', '=', '=']),
                 some (ChunkData.str ['Q', 'w', '=', '='])],
      currentChunkIndex := 0 }
    { fileId := "f", index := 0 }
    ['Q', 'g', '=', '=']
    rfl rfl rfl (by decide) (by decide) (by decide)

/-- Claim C4: a RESUME_REQUEST carrying lastReceivedChunk = k for the
sender's active fileId sets the cursor to k + 1 and resumes stop-and-wait
sending from index k + 1, never re-sending index k and sending only
FILE_CHUNK messages (no metadata is re-sent); independently, the
sender's retry action (handleResume in the sender role) retransmits the
current not-yet-acknowledged chunk without changing the cursor. -/
theorem c4_resume (tr : TransferState) (rq : ResumeRequest) (d : List Char) (tq : TransferState)
    (hfid : tr.fileId = rq.fileId)
    (hlt : rq.lastReceivedChunk + 1 < tr.totalChunks)
    (hdata : (tr.chunks.set rq.lastReceivedChunk none).getD (rq.lastReceivedChunk + 1) none
      = some (ChunkData.str d))
    (hne : d ≠ []) :
    handleIncomingData (some tr) (DCMessage.resumeReq rq) =
      { state := some { tr with chunks := tr.chunks.set rq.lastReceivedChunk none,
                                currentChunkIndex := rq.lastReceivedChunk + 1 },
        sent := [DCMessage.fileChunk
          { fileId := tr.fileId, index := rq.lastReceivedChunk + 1, data := d }],
        delivered := none }
    ∧ (∀ tq2, (handleResumeSenderRole (some tq)).1 = some tq2 →
        tq2.currentChunkIndex = tq.currentChunkIndex)
    ∧ (∀ cm ∈ (handleResumeSenderRole (some tq)).2,
        cm.index = tq.currentChunkIndex ∧ cm.fileId = tq.fileId) := by
  refine ⟨?_, ?_, ?_⟩
  · have hdata2 : tr.chunks[rq.lastReceivedChunk + 1]?.getD none
        = some (ChunkData.str d) := by
      rw [List.getD_eq_getElem?_getD, List.getElem?_set_ne (by omega)] at hdata
      exact hdata
    simp [handleIncomingData, sendNextChunk, hfid, Nat.not_le.mpr hlt, hdata2, hne]
  · intro tq2 h
    obtain ⟨tr1, heq, hcur⟩ := sendNextChunk_cursor (some tq) tq2 h
    obtain rfl : _ = tr1 := Option.some_injective _ heq
    exact hcur
  · intro cm hcm
    obtain ⟨tr1, heq, hi, hf⟩ := sendNextChunk_sent (some tq) cm hcm
    obtain rfl : _ = tr1 := Option.some_injective _ heq
    exact ⟨hi, hf⟩

theorem c4_resume_witness :
    handleIncomingData
        (some { fileId := "f", fileName := "a.bin", fileSize := 5, totalChunks := 3,
                chunks := [some (ChunkData.str ['Q', 'Q', '=', '=']),
                           some (ChunkData.str ['Q', 'g', '=', '=']),
                           some (ChunkData.str ['Q', 'w', '=', '='])],
                currentChunkIndex := 2 })
        (DCMessage.resumeReq { fileId := "f", lastReceivedChunk := 0 }) =
      { state := some
          { fileId := "f", fileName := "a.bin", fileSize := 5, totalChunks := 3,
            chunks := [some (ChunkData.str ['Q', 'Q', '=', '=']),
                       some (ChunkData.str ['Q', 'g', '=', '=']),
                       some (ChunkData.str ['Q', 'w', '=', '='])].set 0 none,
            currentChunkIndex := 0 + 1 },
        sent := [DCMessage.fileChunk
          { fileId := "f", index := 0 + 1, data := ['Q', 'g', '=', '='] }],
        delivered := none }
    ∧ (∀ tq2, (handleResumeSenderRole
        (some { fileId := "g", fileName := "b.bin", fileSize := 5, totalChunks := 3,
                chunks := [none, some (ChunkData.str ['Q', 'g', '=', '=']),
                           some (ChunkData.str ['Q', 'w', '=', '='])],
                currentChunkIndex := 1 })).1 = some tq2 →
        tq2.currentChunkIndex = 1)
    ∧ (∀ cm ∈ (handleResumeSenderRole
        (some { fileId := "g", fileName := "b.bin", fileSize := 5, totalChunks := 3,
                chunks := [none, some (ChunkData.str ['Q', 'g', '=', '=']),
                           some (ChunkData.str ['Q', 'w', '=', '='])],
                currentChunkIndex := 1 })).2,
        cm.index = 1 ∧ cm.fileId = "g") :=
  c4_resume
    { fileId := "f", fileName := "a.bin", fileSize := 5, totalChunks := 3,
      chunks := [some (ChunkData.str ['Q', 'Q', '=', '=']),
                 some (ChunkData.str ['Q', 'g', '=', '=']),
                 some (ChunkData.str ['Q', 'w', '=', '='])],
      currentChunkIndex := 2 }
    { fileId := "f", lastReceivedChunk := 0 }
    ['Q', 'g', '=', '=']
    { fileId := "g", fileName := "b.bin", fileSize := 5, totalChunks := 3,
      chunks := [none, some (ChunkData.str ['Q', 'g', '=', '=']),
                 some (ChunkData.str ['Q', 'w', '=', '='])],
      currentChunkIndex := 1 }
    rfl (by decide) (by decide) (by decide)

/-!
### Lemmas: association-list maps (backend rooms / socketToRoom)
-/

lemma getKey_eraseKey_self {α β : Type} [BEq α] [LawfulBEq α] (k : α) (m : List (α × β)) :
    getKey k (eraseKey k m) = none := by
  induction m with
  | nil => rfl
  | cons p rest ih =>
    obtain ⟨pk, pv⟩ := p
    by_cases h : pk = k
    · simpa [eraseKey, getKey, h] using ih
    · have hne2 : (pk != k) = true := bne_iff_ne.mpr h
      have hk : (k == pk) = false := beq_eq_false_iff_ne.mpr (Ne.symm h)
      simp only [eraseKey, List.filter_cons, hne2, if_true]
      simp only [getKey, List.lookup, hk]
      simpa [getKey, eraseKey] using ih

lemma getKey_setKey_self {α β : Type} [BEq α] [LawfulBEq α] (k : α) (v : β)
    (m : List (α × β)) : getKey k (setKey k v m) = some v := by
  simp [setKey, getKey, List.lookup]

/-- Claim C5: for every live room, the initiator's close deletes the
room and, when a joiner was present, sends it exactly one
PeerDisconnected message (and none otherwise); the joiner's close never
deletes the room, clears its joiner slot, and sends exactly one
PeerDisconnected message to the initiator. -/
theorem c5_disconnect (S : ServerState) (ws : Nat) (rid : String) (room : Room)
    (hsock : getKey ws S.socketToRoom = some rid)
    (hroom : getKey rid S.rooms = some room) :
    (room.sender = ws →
      getKey rid (handleClose S ws).1.rooms = none
      ∧ (handleClose S ws).2 = (match room.receiver with
          | some r => [(r, ServerMsg.peerDisconnected "Host disconnected")]
          | none => []))
    ∧ (room.sender ≠ ws → room.receiver = some ws →
      getKey rid (handleClose S ws).1.rooms = some { room with receiver := none }
      ∧ (handleClose S ws).2 =
          [(room.sender, ServerMsg.peerDisconnected "Peer disconnected")]) := by
  constructor
  · intro hs
    simp only [handleClose, hsock, hroom]
    rw [if_pos hs]
    cases hrec : room.receiver with
    | some r => exact ⟨getKey_eraseKey_self _ _, rfl⟩
    | none => exact ⟨getKey_eraseKey_self _ _, rfl⟩
  · intro hs hr
    simp only [handleClose, hsock, hroom]
    rw [if_neg hs, if_pos hr]
    exact ⟨getKey_setKey_self _ _ _, rfl⟩

theorem c5_disconnect_witness :
    ({ roomId := "AB12", sender := 1, receiver := some 2 } : Room).sender = 1 ∧
    (getKey "AB12" (handleClose
        { rooms := [("AB12", { roomId := "AB12", sender := 1, receiver := some 2 })],
          socketToRoom := [(1, "AB12"), (2, "AB12")] } 1).1.rooms = none
      ∧ (handleClose
        { rooms := [("AB12", { roomId := "AB12", sender := 1, receiver := some 2 })],
          socketToRoom := [(1, "AB12"), (2, "AB12")] } 1).2 =
          [(2, ServerMsg.peerDisconnected "Host disconnected")]) :=
  ⟨rfl,
    (c5_disconnect
      { rooms := [("AB12", { roomId := "AB12", sender := 1, receiver := some 2 })],
        socketToRoom := [(1, "AB12"), (2, "AB12")] } 1 "AB12"
      { roomId := "AB12", sender := 1, receiver := some 2 }
      (by decide) (by decide)).1 rfl⟩

/-- Claim C6: JoinRoom(code) fails with RoomNotFound ("Room not found")
when no live room matches the uppercased code, with RoomFull ("Room is
full") when the room already has a joiner, and with SelfJoin ("Cannot
join your own room") when the caller is the room's own initiator;
otherwise it sets the caller as joiner and sends ROOM_JOINED to the
joiner and PEER_JOINED to the initiator; in every failure case the room
registry is unchanged. -/
theorem c6_join_room (S : ServerState) (ws : Nat) (rid : String) (room : Room)
    (hrid : rid ≠ "") :
    (getKey (toUpperCase rid) S.rooms = none →
      joinRoom S ws (some rid) = (S, [(ws, ServerMsg.error "Room not found")]))
    ∧ (getKey (toUpperCase rid) S.rooms = some room → room.receiver.isSome = true →
      joinRoom S ws (some rid) = (S, [(ws, ServerMsg.error "Room is full")]))
    ∧ (getKey (toUpperCase rid) S.rooms = some room → room.receiver = none → room.sender = ws →
      joinRoom S ws (some rid) = (S, [(ws, ServerMsg.error "Cannot join your own room")]))
    ∧ (getKey (toUpperCase rid) S.rooms = some room → room.receiver = none → room.sender ≠ ws →
      getKey (toUpperCase rid) (joinRoom S ws (some rid)).1.rooms
          = some { room with receiver := some ws }
      ∧ (joinRoom S ws (some rid)).2 =
          [(ws, ServerMsg.roomJoined room.roomId),
           (room.sender, ServerMsg.peerJoined room.roomId)]) := by
  refine ⟨?_, ?_, ?_, ?_⟩
  · intro h
    simp [joinRoom, hrid, h]
  · intro h hfull
    simp [joinRoom, hrid, h, hfull]
  · intro h hempty hself
    simp [joinRoom, hrid, h, hempty, hself]
  · intro h hempty hself
    simp only [joinRoom, h]
    rw [if_neg hrid]
    simp only [hempty, Option.isSome_none, Bool.false_eq_true, if_false]
    rw [if_neg hself]
    exact ⟨getKey_setKey_self _ _ _, rfl⟩

theorem c6_join_room_witness :
    (joinRoom { rooms := [("AB12", { roomId := "AB12", sender := 1, receiver := none })],
                socketToRoom := [(1, "AB12")] } 2 (some "zz99") =
      ({ rooms := [("AB12", { roomId := "AB12", sender := 1, receiver := none })],
         socketToRoom := [(1, "AB12")] }, [(2, ServerMsg.error "Room not found")]))
    ∧ (getKey (toUpperCase "ab12") (joinRoom
          { rooms := [("AB12", { roomId := "AB12", sender := 1, receiver := none })],
            socketToRoom := [(1, "AB12")] } 2 (some "ab12")).1.rooms =
        some { roomId := "AB12", sender := 1, receiver := some 2 }
      ∧ (joinRoom
          { rooms := [("AB12", { roomId := "AB12", sender := 1, receiver := none })],
            socketToRoom := [(1, "AB12")] } 2 (some "ab12")).2 =
          [(2, ServerMsg.roomJoined "AB12"), (1, ServerMsg.peerJoined "AB12")]) :=
  ⟨(c6_join_room
      { rooms := [("AB12", { roomId := "AB12", sender := 1, receiver := none })],
        socketToRoom := [(1, "AB12")] } 2 "zz99"
      { roomId := "AB12", sender := 1, receiver := none } (by decide)).1 (by decide),
   (c6_join_room
      { rooms := [("AB12", { roomId := "AB12", sender := 1, receiver := none })],
        socketToRoom := [(1, "AB12")] } 2 "ab12"
      { roomId := "AB12", sender := 1, receiver := none } (by decide)).2.2.2
      (by decide) rfl (by decide)⟩

/-!
### Lemmas: room-code generation
-/

lemma generateRoomId_spec (rooms : List (String × Room)) :
    ∀ (draws : List (Fin 32 × Fin 32 × Fin 32 × Fin 32)) (code : String),
      generateRoomId rooms draws = some code →
      (∃ p, code = genCandidate p) ∧ getKey code rooms = none := by
  intro draws
  induction draws with
  | nil =>
    intro code h
    simp [generateRoomId] at h
  | cons p rest ih =>
    intro code h
    simp only [generateRoomId] at h
    split at h
    · exact ih code h
    · obtain rfl : genCandidate p = code := Option.some_injective _ h
      rename_i hcond
      refine ⟨⟨p, rfl⟩, ?_⟩
      simpa using hcond

lemma genCandidate_chars (p : Fin 32 × Fin 32 × Fin 32 × Fin 32) :
    ∀ c ∈ (genCandidate p).data, c ∈ roomIdChars := by
  obtain ⟨p1, p2, p3, p4⟩ := p
  have h : ∀ i : Fin 32, roomIdChars.getD i.val 'A' ∈ roomIdChars := by decide
  intro c hc
  have hc2 : c ∈ [roomIdChars.getD p1.val 'A', roomIdChars.getD p2.val 'A',
      roomIdChars.getD p3.val 'A', roomIdChars.getD p4.val 'A'] := hc
  simp only [List.mem_cons, List.not_mem_nil, or_false] at hc2
  rcases hc2 with rfl | rfl | rfl | rfl
  · exact h p1
  · exact h p2
  · exact h p3
  · exact h p4

/-- Claim C7: every code returned by a successful CreateRoom has length
exactly 4, draws every character from the fixed 32-character alphabet
(which excludes the visually ambiguous I, O, 0, 1), and is distinct from
the code of every room live at the time of creation; the CREATE_ROOM
handler reports exactly that code back. -/
theorem c7_room_codes (S : ServerState) (ws : Nat)
    (draws : List (Fin 32 × Fin 32 × Fin 32 × Fin 32)) (code : String)
    (h : generateRoomId S.rooms draws = some code) :
    code.length = 4
    ∧ (∀ c ∈ code.data, c ∈ roomIdChars ∧ c ∉ ['I', 'O', '0', '1'])
    ∧ getKey code S.rooms = none
    ∧ (createRoom S ws draws).2 = [(ws, ServerMsg.roomCreated code)] := by
  obtain ⟨⟨p, rfl⟩, hnone⟩ := generateRoomId_spec S.rooms draws code h
  refine ⟨rfl, ?_, hnone, ?_⟩
  · intro c hc
    have hm := genCandidate_chars p c hc
    have hnotamb : ∀ c ∈ roomIdChars, c ∉ ['I', 'O', '0', '1'] := by decide
    exact ⟨hm, hnotamb c hm⟩
  · simp [createRoom, h]

theorem c7_room_codes_witness :
    ("AAAA" : String).length = 4
    ∧ (∀ c ∈ ("AAAA" : String).data, c ∈ roomIdChars ∧ c ∉ ['I', 'O', '0', '1'])
    ∧ getKey "AAAA" ([] : List (String × Room)) = none
    ∧ (createRoom { rooms := [], socketToRoom := [] } 7 [(0, 0, 0, 0)]).2 =
        [(7, ServerMsg.roomCreated "AAAA")] :=
  c7_room_codes { rooms := [], socketToRoom := [] } 7 [(0, 0, 0, 0)] "AAAA" (by decide)

/-!
### Lemmas: ICE candidate queuing
-/

lemma iceRun_candidates (cs : List String) :
    ∀ p ad, iceRun { remoteDescSet := false, pendingCandidates := p, addedCandidates := ad }
        (cs.map IceEvent.candidate) =
      { remoteDescSet := false, pendingCandidates := p ++ cs, addedCandidates := ad } := by
  induction cs with
  | nil =>
    intro p ad
    simp [iceRun]
  | cons c rest ih =>
    intro p ad
    simp only [List.map_cons, iceRun, List.foldl_cons, iceStep, handleICECandidate]
    simp only [Bool.false_eq_true, if_false]
    have := ih (p ++ [c]) ad
    simp only [iceRun] at this
    rw [this, List.append_assoc]
    rfl

/-- Claim C9: every ICE-candidate message received before the local peer
connection has a remote description is appended to the ordered pending
buffer (in receipt order); the moment a remote description becomes
available the buffer is flushed in exactly receipt order, one
add-candidate operation per buffered entry, and emptied — candidates are
never reordered. -/
theorem c9_ice_candidate_buffering (s : IceState) (c : String) (cs : List String)
    (h : s.remoteDescSet = false) :
    handleICECandidate s c =
      { remoteDescSet := s.remoteDescSet,
        pendingCandidates := s.pendingCandidates ++ [c],
        addedCandidates := s.addedCandidates }
    ∧ handleRemoteDescription s =
      { remoteDescSet := true, pendingCandidates := [],
        addedCandidates := s.addedCandidates ++ s.pendingCandidates }
    ∧ iceRun { remoteDescSet := false, pendingCandidates := [], addedCandidates := [] }
        (cs.map IceEvent.candidate ++ [IceEvent.remoteDescription]) =
      { remoteDescSet := true, pendingCandidates := [], addedCandidates := cs } := by
  refine ⟨?_, rfl, ?_⟩
  · simp [handleICECandidate, h]
  · have hbase := iceRun_candidates cs [] []
    simp only [iceRun] at hbase ⊢
    rw [List.foldl_append, hbase]
    simp [iceStep, handleRemoteDescription]

theorem c9_ice_candidate_buffering_witness :
    handleICECandidate
        { remoteDescSet := false, pendingCandidates := ["a"], addedCandidates := ["z"] } "b" =
      { remoteDescSet := false, pendingCandidates := ["a", "b"], addedCandidates := ["z"] }
    ∧ handleRemoteDescription
        { remoteDescSet := false, pendingCandidates := ["a"], addedCandidates := ["z"] } =
      { remoteDescSet := true, pendingCandidates := [], addedCandidates := ["z", "a"] }
    ∧ iceRun { remoteDescSet := false, pendingCandidates := [], addedCandidates := [] }
        ([IceEvent.candidate "x", IceEvent.candidate "y"] ++ [IceEvent.remoteDescription]) =
      { remoteDescSet := true, pendingCandidates := [], addedCandidates := ["x", "y"] } :=
  c9_ice_candidate_buffering
    { remoteDescSet := false, pendingCandidates := ["a"], addedCandidates := ["z"] }
    "b" ["x", "y"] rfl

end FusionShare
